import Mathlib

/-!
Verification development for the Omnisci buffer codegen module
(`rbc/omnisci_backend/omnisci_buffer.py`).

The Python module emits LLVM IR; we shallowly embed both the compile-time
bookkeeping (the `builder_buffers` registry, overload dispatch, the
assertion guards of the loaded-struct intrinsics) and the runtime
semantics of the emitted code (struct field reads/writes, payload
loads/stores, the coercion applied on stores, the sentinel null
comparison).  Machine values are bit patterns represented as `Nat`,
reduced `% 2^w` where the IR semantics wraps; floating-point conversion
instructions (`fptrunc`/`fpext`) are kept abstract as explicit function
parameters over bit patterns.
-/

/-- Kind of a numba scalar type, as branched on by `truncate_or_extend`
(`isinstance(nb_value, types.Integer / types.Float / types.Boolean)`);
`other` covers any remaining class, which falls through unchanged. -/
inductive NBKind where
  | int (signed : Bool)
  | float
  | boolean
  | other
deriving DecidableEq, Repr

/-- A numba scalar type: kind plus the numba-level bit width
(`.bitwidth` in the source). -/
structure NBType where
  kind : NBKind
  bitwidth : Nat
deriving DecidableEq, Repr

/-- The coercion instruction chosen by `truncate_or_extend`: each LLVM
builder call in the source maps to one constructor, carrying the widths
it needs to be interpreted on bit patterns. -/
inductive CoerceOp where
  | trunc (dstW : Nat)
  | sext (srcW dstW : Nat)
  | zext (dstW : Nat)
  | fptrunc
  | fpext
  | noop
deriving DecidableEq, Repr

/-- Embedding of `truncate_or_extend(builder, nb_value, eltype, value, buf_typ)`.
The `Integer` and `Float` branches compare numba bitwidths
(`eltype.bitwidth` vs `nb_value.bitwidth`); the `Boolean` branch compares
the LLVM widths (`buf_typ.width` vs `value.type.width`), given here as
`valueWidth`/`bufWidth`.  Every emitted conversion targets `buf_typ`,
whose width is `bufWidth`.  When no branch fires, the value is returned
unchanged (`return value` at the bottom of the source). -/
def truncate_or_extend (nb_value eltype : NBType) (valueWidth bufWidth : Nat) : CoerceOp :=
  match nb_value.kind with
  | NBKind.int signed =>
    if eltype.bitwidth < nb_value.bitwidth then CoerceOp.trunc bufWidth
    else if nb_value.bitwidth < eltype.bitwidth then
      if signed then CoerceOp.sext valueWidth bufWidth else CoerceOp.zext bufWidth
    else CoerceOp.noop
  | NBKind.float =>
    if eltype.bitwidth < nb_value.bitwidth then CoerceOp.fptrunc
    else if nb_value.bitwidth < eltype.bitwidth then CoerceOp.fpext
    else CoerceOp.noop
  | NBKind.boolean =>
    if bufWidth < valueWidth then CoerceOp.trunc bufWidth
    else if valueWidth < bufWidth then CoerceOp.zext bufWidth
    else CoerceOp.noop
  | NBKind.other => CoerceOp.noop

/-- Interpretation of a coercion instruction on bit patterns.
`trunc` keeps the low `dstW` bits; `sext` replicates the sign bit of a
`srcW`-bit pattern up to `dstW` bits; `zext` keeps the value; the two
floating-point conversions are interpreted by the supplied abstract
functions `ftr`/`fex`. -/
def applyCoerceOp (ftr fex : Nat → Nat) (op : CoerceOp) (v : Nat) : Nat :=
  match op with
  | CoerceOp.trunc dstW => v % 2 ^ dstW
  | CoerceOp.sext srcW dstW =>
      (if v < 2 ^ (srcW - 1) then v else 2 ^ dstW - 2 ^ srcW + v) % 2 ^ dstW
  | CoerceOp.zext _ => v
  | CoerceOp.fptrunc => ftr v
  | CoerceOp.fpext => fex v
  | CoerceOp.noop => v

/-- The coercion decision table exactly as the specification states it
(spec section 4.3), written from the spec's words for comparison with
`truncate_or_extend`: rows are keyed by source kind, destination kind and
the width comparison; cross-kind pairs are not in the table. -/
def coercionTableSpec (srcKind dstKind : NBKind) (srcW dstW : Nat) : Option CoerceOp :=
  match srcKind, dstKind with
  | NBKind.int s, NBKind.int _ =>
    if dstW < srcW then some (CoerceOp.trunc dstW)
    else if srcW < dstW then
      some (if s then CoerceOp.sext srcW dstW else CoerceOp.zext dstW)
    else some CoerceOp.noop
  | NBKind.float, NBKind.float =>
    if dstW < srcW then some CoerceOp.fptrunc
    else if srcW < dstW then some CoerceOp.fpext
    else some CoerceOp.noop
  | NBKind.boolean, NBKind.boolean =>
    if dstW < srcW then some (CoerceOp.trunc dstW)
    else if srcW < dstW then some (CoerceOp.zext dstW)
    else some CoerceOp.noop
  | _, _ => none

/-- A lowered Omnisci buffer struct: positional field values, in the
layout order `[ptr, sz, extra...]`.  GEP indices in the source address
these positions directly. -/
structure BufferStruct where
  fields : List Nat
deriving DecidableEq, Repr

/-- The `builder_buffers` global: `defaultdict(list)` keyed by builder
identity, holding the raw payload addresses recorded during that
builder's lifetime. -/
abbrev BuilderBuffers := List (Nat × List Nat)

/-- Lookup in `builder_buffers`: a missing key reads as the empty list
(defaultdict semantics). -/
def bbGet (r : BuilderBuffers) (b : Nat) : List Nat :=
  match r.lookup b with
  | some l => l
  | none => []

/-- Remove a builder's entry entirely (`del builder_buffers[builder]`). -/
def bbErase (r : BuilderBuffers) (b : Nat) : BuilderBuffers :=
  r.filter (fun kv => kv.1 ≠ b)

/-- `builder_buffers[builder].append(ptr8)`. -/
def bbAppend (r : BuilderBuffers) (b : Nat) (p : Nat) : BuilderBuffers :=
  (b, bbGet r b ++ [p]) :: bbErase r b

theorem lookup_bbErase (r : BuilderBuffers) (b : Nat) :
    List.lookup b (bbErase r b) = none := by
  unfold bbErase
  induction r with
  | nil => rfl
  | cons kv tl ih =>
    by_cases h : kv.1 = b
    · simpa [List.filter_cons, h] using ih
    · have hbne : (b == kv.1) = false := by
        simp only [beq_eq_false_iff_ne, ne_eq]
        intro he; exact h he.symm
      simp only [List.filter_cons, decide_eq_true_eq, ne_eq, h, not_false_iff, if_true,
        List.lookup, hbne]
      exact ih

theorem bbGet_bbErase (r : BuilderBuffers) (b : Nat) : bbGet (bbErase r b) b = [] := by
  unfold bbGet
  rw [lookup_bbErase]

theorem bbGet_bbAppend (r : BuilderBuffers) (b p : Nat) :
    bbGet (bbAppend r b p) b = bbGet r b ++ [p] := by
  unfold bbAppend
  show bbGet ((b, bbGet r b ++ [p]) :: bbErase r b) b = _
  unfold bbGet
  simp [List.lookup]

/-- Result of `omnisci_buffer_constructor`: the populated struct and the
updated `builder_buffers` registry. -/
structure ConstructorResult where
  buf : BufferStruct
  registry : BuilderBuffers
deriving Repr

/-- Embedding of `omnisci_buffer_constructor`.  The size argument is
zero-extended to 64 bits (`builder.zext(args[0], int64_t)`, modelled by
`% 2 ^ 64` on the pattern), the allocator is called with the element
count and element byte size, the raw address is appended to
`builder_buffers[builder]`, and the struct fields `ptr`/`sz` are
populated.  For the null-flag member the source builds an
`if_else(is_zero)` region, but both `with then:` and `with orelse:`
bodies only rebind the Python variable `is_null` to `ir.Constant`s —
emitting no instruction, no per-branch store and no phi — so after the
region exits, `fa.is_null = is_null` stores the `orelse` constant 0 in
the endif block unconditionally: the emitted flag value is 0 whatever
the element count. -/
def omnisci_buffer_constructor (hasNullField : Bool)
    (alloc : Nat → Nat → Nat) (builder : Nat) (registry : BuilderBuffers)
    (elWidthBits : Nat) (count : Nat) : ConstructorResult :=
  let element_count := count % 2 ^ 64
  let element_size := elWidthBits / 8
  let ptr8 := alloc element_count element_size
  let registry1 := bbAppend registry builder ptr8
  let is_null : Nat := 0
  let fields :=
    if hasNullField then [ptr8, element_count, is_null]
    else [ptr8, element_count]
  { buf := { fields := fields }, registry := registry1 }

/-- Result of the code emitted by `free_omnisci_buffer`: the list of
addresses on which the runtime `free` call actually executes (in emission
order), and the registry after `del builder_buffers[builder]`. -/
structure DrainResult where
  freed : List Nat
  registry : BuilderBuffers
deriving Repr

/-- Embedding of `free_omnisci_buffer`'s codegen.  When the declared
return type is a `BufferPointer`, each recorded address is freed under a
runtime guard `icmp_signed(ptr != ptr8)` against the returned buffer's
payload pointer; otherwise every recorded address is freed
unconditionally.  Either way the builder's registry entry is then deleted
wholesale. -/
def free_omnisci_buffer (retIsBufferPointer : Bool) (retPayloadPtr : Nat)
    (builder : Nat) (registry : BuilderBuffers) : DrainResult :=
  let buffers := bbGet registry builder
  let freed :=
    if retIsBufferPointer then buffers.filter (fun ptr8 => ptr8 ≠ retPayloadPtr)
    else buffers
  { freed := freed, registry := bbErase registry builder }

/-- Pointer-mode `len`: `omnisci_buffer_ptr_len_` loads the field at GEP
index 1 (the `sz` member). -/
def omnisci_buffer_ptr_len_ (buf : BufferStruct) : Nat := buf.fields.getD 1 0

/-- Pointer-mode `getitem`: loads the payload pointer at GEP index 0,
then loads element `index`; no coercion is applied to the loaded value. -/
def omnisci_buffer_ptr_getitem_ (heap : Nat → Nat) (buf : BufferStruct) (index : Nat) : Nat :=
  heap (buf.fields.getD 0 0 + index)

/-- Pointer-mode `setitem`: loads the payload pointer at GEP index 0,
passes the incoming value through `truncate_or_extend`, and stores the
result at `ptr + index`.  Returns the updated payload heap. -/
def omnisci_buffer_ptr_setitem_ (heap : Nat → Nat) (buf : BufferStruct)
    (nb_value eltype : NBType) (valueWidth bufWidth : Nat) (ftr fex : Nat → Nat)
    (index value : Nat) : Nat → Nat :=
  fun a =>
    if a = buf.fields.getD 0 0 + index then
      applyCoerceOp ftr fex (truncate_or_extend nb_value eltype valueWidth bufWidth) value
    else heap a

/-- Whole-buffer null check `omnisci_buffer_is_null_`: loads the field at
GEP index 2 (the null-flag byte) and returns it as an `int8`. -/
def omnisci_buffer_is_null_ (buf : BufferStruct) : Nat := buf.fields.getD 2 0

/-- Whole-buffer `omnisci_buffer_set_null_`: stores `int8_t(1)` into the
field at GEP index 2. -/
def omnisci_buffer_set_null_ (buf : BufferStruct) : BufferStruct :=
  { fields := buf.fields.set 2 1 }

/-- `np.uint64(v).astype(dtype)` for an integer dtype of the given width
and signedness: wrap to 64 bits, wrap to the target width, and read the
result with the target's signedness. -/
def np_uint64_astype (signed : Bool) (width : Nat) (v : Nat) : Int :=
  let u : Nat := v % 2 ^ 64 % 2 ^ width
  if signed ∧ 2 ^ (width - 1) ≤ u then (u : Int) - (2 : Int) ^ width else (u : Int)

/-- Bit pattern of `ir.Constant(ir.IntType(width), v)`: LLVM integer
constants are reduced modulo `2 ^ width` (negative values wrap). -/
def irConstPattern (width : Nat) (v : Int) : Nat := (v % ((2 : Int) ^ width)).toNat

/-- Sentinel bit pattern the intrinsic compares against: for float
element types the configured value is used as-is; for every other
element type it is first reinterpreted via
`np.uint64(null_value).astype(str(T.dtype))`. -/
def sentinelPattern (T : NBType) (null_value : Nat) : Nat :=
  match T.kind with
  | NBKind.float => irConstPattern T.bitwidth (null_value : Int)
  | NBKind.int s => irConstPattern T.bitwidth (np_uint64_astype s T.bitwidth null_value)
  | _ => irConstPattern T.bitwidth (np_uint64_astype false T.bitwidth null_value)

/-- Embedding of `omnisci_array_is_null_`: for float element types the
element is first bitcast to an integer of the same width (the identity on
our bit-pattern representation), then `icmp_signed('==')` compares the
width-bit patterns against the sentinel constant. -/
def omnisci_array_is_null_ (T : NBType) (null_value : Nat) (elem : Nat) : Bool :=
  decide (elem % 2 ^ T.bitwidth = sentinelPattern T null_value)

/-- Embedding of `omnisci_array_set_null_`: builds the sentinel constant
(with the same reinterpretation as the null check; the float-case bitcast
is the identity on patterns) and performs a coerced store of it at
`index` through the `omnisci_buffer_ptr_setitem_` intrinsic, with value
type equal to the element type. -/
def omnisci_array_set_null_ (heap : Nat → Nat) (buf : BufferStruct) (T : NBType)
    (null_value : Nat) (ftr fex : Nat → Nat) (index : Nat) : Nat → Nat :=
  omnisci_buffer_ptr_setitem_ heap buf T T T.bitwidth T.bitwidth ftr fex index
    (sentinelPattern T null_value)

/-- Embedding of the `is_null` overload on `BufferPointer`
(`omnisci_buffer_is_null`): with no index argument
(`cgutils.is_nonelike(row_idx)`) it lowers to the whole-buffer flag read
`omnisci_buffer_is_null_(x)`; with an index it lowers to
`omnisci_array_is_null_(T, x[row_idx])`. -/
def omnisci_buffer_is_null (heap : Nat → Nat) (buf : BufferStruct) (T : NBType)
    (null_value : Nat) (row_idx : Option Nat) : Nat :=
  match row_idx with
  | none => omnisci_buffer_is_null_ buf
  | some i =>
      if omnisci_array_is_null_ T null_value (omnisci_buffer_ptr_getitem_ heap buf i)
      then 1 else 0

/-- Embedding of the `set_null` overload on `BufferPointer`
(`omnisci_buffer_set_null`): with no index argument it lowers to the
whole-buffer flag write `omnisci_buffer_set_null_(x)`; with an index it
lowers to `omnisci_array_set_null_(x, row_idx)`.  Returns the (struct,
payload heap) pair after the operation. -/
def omnisci_buffer_set_null (heap : Nat → Nat) (buf : BufferStruct) (T : NBType)
    (null_value : Nat) (ftr fex : Nat → Nat) (row_idx : Option Nat) :
    BufferStruct × (Nat → Nat) :=
  match row_idx with
  | none => (omnisci_buffer_set_null_ buf, heap)
  | some i => (buf, omnisci_array_set_null_ heap buf T null_value ftr fex i)

/-- A typesystem type descriptor, as used by `OmnisciBufferType.tonumba`:
an opaque description string plus the field name attached to it. -/
structure TSType where
  fieldName : String
  desc : String
deriving DecidableEq, Repr

/-- The pointer field `typesystem.Type(self.element_type, '*', name='ptr')`. -/
def ptrFieldOf (element_type : TSType) : TSType :=
  { fieldName := "ptr", desc := element_type.desc ++ "*" }

/-- The size field `typesystem.Type.fromstring('size_t sz')`. -/
def szFieldOf : TSType :=
  { fieldName := "sz", desc := "size_t" }

/-- Embedding of the struct layout built by `OmnisciBufferType.tonumba`:
`typesystem.Type(ptr_t, size_t, *extra_members)` — the pointer field
first, the size field second, then the extra members in their given
order. -/
def tonumba (element_type : TSType) (buffer_extra_members : List TSType) : List TSType :=
  ptrFieldOf element_type :: szFieldOf :: buffer_extra_members

/-- Embedding of `OmnisciBufferType.preprocess_args`: asserts that the
argument list has exactly one element which itself has exactly one
element (the element type), converts that element via
`typesystem.Type.fromobject`, and returns it re-wrapped.  A failed
assert surfaces synchronously as an error. -/
def preprocess_args (fromobject : String → TSType) (args : List (List String)) :
    Except String (List (List TSType)) :=
  match args with
  | [arg0] =>
    match arg0 with
    | [element_type] => Except.ok [[fromobject element_type]]
    | _ => Except.error ("AssertionError")
  | _ => Except.error ("AssertionError")

/-- An LLVM value as seen by the loaded-struct intrinsics: either the
result of a `load` instruction (carrying the pointer it loaded from), a
function argument, or the result of a call. -/
inductive IRValue where
  | loadInst (src : Nat)
  | argValue (n : Nat)
  | callInst (fname : String)
deriving DecidableEq, Repr

/-- The `.opname` attribute tested by `assert data.opname == 'load'`. -/
def IRValue.opname : IRValue → String
  | IRValue.loadInst _ => "load"
  | IRValue.argValue _ => "arg"
  | IRValue.callInst _ => "call"

/-- `data.operands[0]`: for a load, the pointer operand. -/
def IRValue.operand0 : IRValue → Nat
  | IRValue.loadInst s => s
  | IRValue.argValue _ => 0
  | IRValue.callInst _ => 0

/-- Embedding of loaded-struct-mode `omnisci_buffer_len_`: asserts the
argument is a load result, recomputes the struct pointer as
`data.operands[0]`, and loads the field at GEP index 1.  `smem` maps a
struct pointer to the struct stored there. -/
def omnisci_buffer_len_ (smem : Nat → BufferStruct) (data : IRValue) : Except String Nat :=
  if data.opname = "load" then
    Except.ok ((smem data.operand0).fields.getD 1 0)
  else Except.error ("AssertionError")

/-- Embedding of loaded-struct-mode `omnisci_buffer_getitem_`: asserts
the argument is a load result, recomputes the struct pointer, loads the
payload pointer at GEP index 0 and then element `index`, unchanged. -/
def omnisci_buffer_getitem_ (smem : Nat → BufferStruct) (heap : Nat → Nat)
    (data : IRValue) (index : Nat) : Except String Nat :=
  if data.opname = "load" then
    Except.ok (heap ((smem data.operand0).fields.getD 0 0 + index))
  else Except.error ("AssertionError")

/-- Embedding of loaded-struct-mode `omnisci_buffer_setitem_`: asserts
the argument is a load result, recomputes the struct pointer, applies
`truncate_or_extend` to the incoming value and stores it at
`ptr + index`, returning the updated payload heap. -/
def omnisci_buffer_setitem_ (smem : Nat → BufferStruct) (heap : Nat → Nat)
    (nb_value eltype : NBType) (valueWidth bufWidth : Nat) (ftr fex : Nat → Nat)
    (data : IRValue) (index value : Nat) : Except String (Nat → Nat) :=
  if data.opname = "load" then
    Except.ok (fun a =>
      if a = (smem data.operand0).fields.getD 0 0 + index then
        applyCoerceOp ftr fex (truncate_or_extend nb_value eltype valueWidth bufWidth) value
      else heap a)
  else Except.error ("AssertionError")

/-- C1: code bug.  The claim (and the spec) require the constructor to
set the null flag to true exactly when the requested element count is
zero, but the `if_else` bodies in the source only rebind a Python
variable to constants — no phi and no per-branch store — so the emitted
code stores the `orelse` constant 0 into the flag unconditionally.
Evaluating the faithful model at the failing input: constructing with
element count 0 on a null-flag layout yields flag byte 0, i.e.
`is_null(buffer) == false`, contradicting the claimed `true`; indeed the
flag is 0 for every element count. -/
theorem C1_constructor_flag_always_zero (alloc : Nat → Nat → Nat) (builder : Nat)
    (registry : BuilderBuffers) (elW : Nat) :
    omnisci_buffer_is_null_
        (omnisci_buffer_constructor true alloc builder registry elW 0).buf = 0
    ∧ ∀ N : Nat,
        omnisci_buffer_is_null_
          (omnisci_buffer_constructor true alloc builder registry elW N).buf = 0 :=
  ⟨rfl, fun _ => rfl⟩

/-- C2: for a context whose recorded address list is `[a, b, c]`,
draining with `b` excluded as the returned payload emits release calls
for exactly `a` and `c` (in that order), never for `b`, deletes the
context's whole registry entry (including `b`'s slot), and a second
drain on the same context emits no release call. -/
theorem C2_drain_exclusion (registry : BuilderBuffers) (ctx a b c : Nat)
    (hget : bbGet registry ctx = [a, b, c]) (hab : a ≠ b) (hcb : c ≠ b) :
    (free_omnisci_buffer true b ctx registry).freed = [a, c]
    ∧ b ∉ (free_omnisci_buffer true b ctx registry).freed
    ∧ bbGet (free_omnisci_buffer true b ctx registry).registry ctx = []
    ∧ (free_omnisci_buffer true b ctx
        (free_omnisci_buffer true b ctx registry).registry).freed = [] := by
  have hfreed : (free_omnisci_buffer true b ctx registry).freed = [a, c] := by
    simp [free_omnisci_buffer, hget, List.filter_cons, hab, hcb]
  refine ⟨hfreed, ?_, ?_, ?_⟩
  · rw [hfreed]
    intro hmem
    simp only [List.mem_cons, List.not_mem_nil, or_false] at hmem
    rcases hmem with h | h
    · exact hab h.symm
    · exact hcb h.symm
  · exact bbGet_bbErase registry ctx
  · simp [free_omnisci_buffer, bbGet_bbErase]

theorem C2_drain_exclusion_witness :
    (free_omnisci_buffer true 20 5 [(5, [10, 20, 30])]).freed = [10, 30]
    ∧ 20 ∉ (free_omnisci_buffer true 20 5 [(5, [10, 20, 30])]).freed
    ∧ bbGet (free_omnisci_buffer true 20 5 [(5, [10, 20, 30])]).registry 5 = []
    ∧ (free_omnisci_buffer true 20 5
        (free_omnisci_buffer true 20 5 [(5, [10, 20, 30])]).registry).freed = [] :=
  C2_drain_exclusion [(5, [10, 20, 30])] 5 10 20 30 (by decide) (by decide) (by decide)

/-- C9: when the declared return type is not a buffer pointer the drain
releases every recorded address unconditionally; when it is a buffer
pointer each address is released only under the runtime guard
`ptr != ptr8`, so every recorded entry equal to the returned payload —
duplicates and aliases included — is skipped, and every other entry is
released. -/
theorem C9_drain_runtime_guard (registry : BuilderBuffers) (ctx retPtr : Nat) :
    (free_omnisci_buffer false retPtr ctx registry).freed = bbGet registry ctx
    ∧ (free_omnisci_buffer true retPtr ctx registry).freed
        = (bbGet registry ctx).filter (fun ptr8 => ptr8 ≠ retPtr)
    ∧ (∀ p ∈ bbGet registry ctx, p = retPtr →
        p ∉ (free_omnisci_buffer true retPtr ctx registry).freed)
    ∧ (∀ p ∈ bbGet registry ctx, p ≠ retPtr →
        p ∈ (free_omnisci_buffer true retPtr ctx registry).freed) := by
  refine ⟨rfl, rfl, ?_, ?_⟩
  · intro p _ hp hmem
    simp only [free_omnisci_buffer, if_true] at hmem
    have := List.of_mem_filter hmem
    simp only [decide_eq_true_eq] at this
    exact this hp
  · intro p hmem hne
    simp only [free_omnisci_buffer, if_true]
    exact List.mem_filter.mpr ⟨hmem, by simpa using hne⟩

theorem C9_drain_runtime_guard_witness :
    (free_omnisci_buffer false 20 5 [(5, [10, 20, 20, 30])]).freed = bbGet [(5, [10, 20, 20, 30])] 5
    ∧ (free_omnisci_buffer true 20 5 [(5, [10, 20, 20, 30])]).freed
        = (bbGet [(5, [10, 20, 20, 30])] 5).filter (fun ptr8 => ptr8 ≠ 20)
    ∧ 20 ∉ (free_omnisci_buffer true 20 5 [(5, [10, 20, 20, 30])]).freed
    ∧ 30 ∈ (free_omnisci_buffer true 20 5 [(5, [10, 20, 20, 30])]).freed := by
  have h := C9_drain_runtime_guard [(5, [10, 20, 20, 30])] 5 20
  refine ⟨h.1, h.2.1, ?_, ?_⟩
  · exact h.2.2.1 20 (by decide) rfl
  · exact h.2.2.2 30 (by decide) (by decide)

theorem table_int_eq (s d : Bool) (srcW dstW : Nat) :
    coercionTableSpec (NBKind.int s) (NBKind.int d) srcW dstW
      = some (truncate_or_extend ⟨NBKind.int s, srcW⟩ ⟨NBKind.int d, dstW⟩ srcW dstW) := by
  simp only [coercionTableSpec, truncate_or_extend]
  split_ifs <;> rfl

theorem table_float_eq (srcW dstW vW bW : Nat) :
    coercionTableSpec NBKind.float NBKind.float srcW dstW
      = some (truncate_or_extend ⟨NBKind.float, srcW⟩ ⟨NBKind.float, dstW⟩ vW bW) := by
  simp only [coercionTableSpec, truncate_or_extend]
  split_ifs <;> rfl

theorem table_bool_eq (nbW elW vW bW : Nat) :
    coercionTableSpec NBKind.boolean NBKind.boolean vW bW
      = some (truncate_or_extend ⟨NBKind.boolean, nbW⟩ ⟨NBKind.boolean, elW⟩ vW bW) := by
  simp only [coercionTableSpec, truncate_or_extend]
  split_ifs <;> rfl

/-- C4: `truncate_or_extend` implements exactly the specification's
coercion table on every same-kind source/destination pair.  Integer and
float decisions are keyed by the numba bitwidths (with the LLVM widths
agreeing for those kinds), boolean decisions by the LLVM widths; the
equal-width same-kind rows of the table yield the pass-through `noop`. -/
theorem C4_truncate_or_extend_table :
    (∀ (s d : Bool) (srcW dstW vW bW : Nat), vW = srcW → bW = dstW →
        coercionTableSpec (NBKind.int s) (NBKind.int d) srcW dstW
          = some (truncate_or_extend ⟨NBKind.int s, srcW⟩ ⟨NBKind.int d, dstW⟩ vW bW))
    ∧ (∀ (srcW dstW vW bW : Nat),
        coercionTableSpec NBKind.float NBKind.float srcW dstW
          = some (truncate_or_extend ⟨NBKind.float, srcW⟩ ⟨NBKind.float, dstW⟩ vW bW))
    ∧ (∀ (nbW elW vW bW : Nat),
        coercionTableSpec NBKind.boolean NBKind.boolean vW bW
          = some (truncate_or_extend ⟨NBKind.boolean, nbW⟩ ⟨NBKind.boolean, elW⟩ vW bW))
    ∧ (∀ (k : NBKind) (w : Nat),
        coercionTableSpec k k w w = some CoerceOp.noop ∨ coercionTableSpec k k w w = none) := by
  refine ⟨?_, table_float_eq, table_bool_eq, ?_⟩
  · intro s d srcW dstW vW bW hv hb
    rw [hv, hb]
    exact table_int_eq s d srcW dstW
  · intro k w
    cases k with
    | int s => left; simp [coercionTableSpec]
    | float => left; simp [coercionTableSpec]
    | boolean => left; simp [coercionTableSpec]
    | other => right; rfl

theorem C4_truncate_or_extend_table_witness :
    coercionTableSpec (NBKind.int true) (NBKind.int true) 64 32
      = some (truncate_or_extend ⟨NBKind.int true, 64⟩ ⟨NBKind.int true, 32⟩ 64 32) :=
  C4_truncate_or_extend_table.1 true true 64 32 64 32 rfl rfl

/-- C3: storing through `omnisci_buffer_ptr_setitem_` and loading back
through `omnisci_buffer_ptr_getitem_` yields the incoming value with
exactly the coercion chosen by `truncate_or_extend` applied; on each
same-kind pair this coercion is the one the specification's table
prescribes; when source and destination widths agree (same kind) the
round trip is the identity; and the load itself applies no coercion,
surfacing whatever bit pattern the payload slot holds. -/
theorem C3_setitem_getitem_roundtrip :
    (∀ (heap : Nat → Nat) (buf : BufferStruct) (nb el : NBType) (vW bW : Nat)
        (ftr fex : Nat → Nat) (i v : Nat),
        omnisci_buffer_ptr_getitem_
            (omnisci_buffer_ptr_setitem_ heap buf nb el vW bW ftr fex i v) buf i
          = applyCoerceOp ftr fex (truncate_or_extend nb el vW bW) v)
    ∧ (∀ (heap : Nat → Nat) (buf : BufferStruct) (s d : Bool) (srcW dstW : Nat)
        (ftr fex : Nat → Nat) (i v : Nat),
        omnisci_buffer_ptr_getitem_
            (omnisci_buffer_ptr_setitem_ heap buf ⟨NBKind.int s, srcW⟩ ⟨NBKind.int d, dstW⟩
              srcW dstW ftr fex i v) buf i
          = applyCoerceOp ftr fex
              ((coercionTableSpec (NBKind.int s) (NBKind.int d) srcW dstW).getD CoerceOp.noop) v)
    ∧ (∀ (heap : Nat → Nat) (buf : BufferStruct) (srcW dstW : Nat)
        (ftr fex : Nat → Nat) (i v : Nat),
        omnisci_buffer_ptr_getitem_
            (omnisci_buffer_ptr_setitem_ heap buf ⟨NBKind.float, srcW⟩ ⟨NBKind.float, dstW⟩
              srcW dstW ftr fex i v) buf i
          = applyCoerceOp ftr fex
              ((coercionTableSpec NBKind.float NBKind.float srcW dstW).getD CoerceOp.noop) v)
    ∧ (∀ (heap : Nat → Nat) (buf : BufferStruct) (nbW elW vW bW : Nat)
        (ftr fex : Nat → Nat) (i v : Nat),
        omnisci_buffer_ptr_getitem_
            (omnisci_buffer_ptr_setitem_ heap buf ⟨NBKind.boolean, nbW⟩ ⟨NBKind.boolean, elW⟩
              vW bW ftr fex i v) buf i
          = applyCoerceOp ftr fex
              ((coercionTableSpec NBKind.boolean NBKind.boolean vW bW).getD CoerceOp.noop) v)
    ∧ (∀ (heap : Nat → Nat) (buf : BufferStruct) (nb el : NBType) (vW bW : Nat)
        (ftr fex : Nat → Nat) (i v : Nat),
        nb.kind = el.kind → nb.bitwidth = el.bitwidth → vW = bW →
        omnisci_buffer_ptr_getitem_
            (omnisci_buffer_ptr_setitem_ heap buf nb el vW bW ftr fex i v) buf i = v)
    ∧ (∀ (heap : Nat → Nat) (buf : BufferStruct) (i w : Nat),
        omnisci_buffer_ptr_getitem_
          (fun a => if a = buf.fields.getD 0 0 + i then w else heap a) buf i = w) := by
  have hbase : ∀ (heap : Nat → Nat) (buf : BufferStruct) (nb el : NBType) (vW bW : Nat)
      (ftr fex : Nat → Nat) (i v : Nat),
      omnisci_buffer_ptr_getitem_
          (omnisci_buffer_ptr_setitem_ heap buf nb el vW bW ftr fex i v) buf i
        = applyCoerceOp ftr fex (truncate_or_extend nb el vW bW) v := by
    intro heap buf nb el vW bW ftr fex i v
    simp [omnisci_buffer_ptr_getitem_, omnisci_buffer_ptr_setitem_]
  refine ⟨hbase, ?_, ?_, ?_, ?_, ?_⟩
  · intro heap buf s d srcW dstW ftr fex i v
    rw [table_int_eq, Option.getD_some]
    exact hbase heap buf _ _ srcW dstW ftr fex i v
  · intro heap buf srcW dstW ftr fex i v
    rw [table_float_eq srcW dstW srcW dstW, Option.getD_some]
    exact hbase heap buf _ _ srcW dstW ftr fex i v
  · intro heap buf nbW elW vW bW ftr fex i v
    rw [table_bool_eq nbW elW vW bW, Option.getD_some]
    exact hbase heap buf _ _ vW bW ftr fex i v
  · intro heap buf nb el vW bW ftr fex i v hk hw hvb
    have hnoop : truncate_or_extend nb el vW bW = CoerceOp.noop := by
      cases nb with
      | mk nk nw =>
        cases el with
        | mk ek ew =>
          simp only at hk hw
          subst hk
          subst hw
          subst hvb
          cases nk <;> simp [truncate_or_extend]
    rw [hbase, hnoop]
    rfl
  · intro heap buf i w
    simp [omnisci_buffer_ptr_getitem_]

theorem C3_setitem_getitem_roundtrip_witness :
    omnisci_buffer_ptr_getitem_
        (omnisci_buffer_ptr_setitem_ (fun _ => 0) ⟨[100, 5]⟩ ⟨NBKind.int true, 32⟩
          ⟨NBKind.int true, 32⟩ 32 32 (fun x => x) (fun x => x) 2 7) ⟨[100, 5]⟩ 2 = 7 :=
  C3_setitem_getitem_roundtrip.2.2.2.2.1 (fun _ => 0) ⟨[100, 5]⟩ ⟨NBKind.int true, 32⟩
    ⟨NBKind.int true, 32⟩ 32 32 (fun x => x) (fun x => x) 2 7 rfl rfl rfl

theorem irConstPattern_astype (s : Bool) (w v : Nat) :
    irConstPattern w (np_uint64_astype s w v) = v % 2 ^ 64 % 2 ^ w := by
  unfold irConstPattern np_uint64_astype
  set u : Nat := v % 2 ^ 64 % 2 ^ w with hu
  have hpos : (0 : Nat) < 2 ^ w := pow_pos (by norm_num) w
  have hult : u < 2 ^ w := Nat.mod_lt _ hpos
  have hmodu : (u : Int) % (2 : Int) ^ w = (u : Int) :=
    Int.emod_eq_of_lt (by exact_mod_cast Nat.zero_le u) (by exact_mod_cast hult)
  have hsub : ((u : Int) - (2 : Int) ^ w) % (2 : Int) ^ w = (u : Int) % (2 : Int) ^ w := by
    rw [Int.sub_emod, Int.emod_self, sub_zero, Int.emod_emod_of_dvd _ dvd_rfl]
  by_cases hc : s = true ∧ 2 ^ (w - 1) ≤ u
  · rw [if_pos hc, hsub, hmodu, Int.toNat_natCast]
  · rw [if_neg hc, hmodu, Int.toNat_natCast]

theorem irConstPattern_ofNat (w v : Nat) : irConstPattern w (v : Int) = v % 2 ^ w := by
  unfold irConstPattern
  have h2 : ((2 : Int) ^ w) = ((2 ^ w : Nat) : Int) := by push_cast; ring
  rw [h2, ← Int.natCast_mod, Int.toNat_natCast]

theorem int_sentinel_iff (s : Bool) (w nv elem : Nat) (hw : w ≤ 64) (helem : elem < 2 ^ w) :
    omnisci_array_is_null_ ⟨NBKind.int s, w⟩ nv elem = true ↔ elem = nv % 2 ^ w := by
  unfold omnisci_array_is_null_ sentinelPattern
  simp only [irConstPattern_astype]
  rw [Nat.mod_mod_of_dvd nv (pow_dvd_pow 2 hw)]
  rw [Nat.mod_eq_of_lt helem]
  simp

/-- C5: for integer element types the externally supplied unsigned
sentinel is reinterpreted with the element's signedness
(`np.uint64(null_value).astype(dtype)`) before being embedded as an LLVM
constant, so the comparison is against the sentinel's low `w` bits; for
float element types the element is bitcast and its bit pattern compared
against the raw sentinel pattern; in particular, for a signed 8-bit
element type with sentinel 129 the reinterpretation yields -127 and
`is_null` holds exactly when the raw byte equals 129. -/
theorem C5_sentinel_null_check :
    (∀ (s : Bool) (w nv elem : Nat), w ≤ 64 → elem < 2 ^ w →
        (omnisci_array_is_null_ ⟨NBKind.int s, w⟩ nv elem = true ↔ elem = nv % 2 ^ w))
    ∧ (∀ (w nv elem : Nat), elem < 2 ^ w →
        (omnisci_array_is_null_ ⟨NBKind.float, w⟩ nv elem = true ↔ elem = nv % 2 ^ w))
    ∧ np_uint64_astype true 8 129 = -127
    ∧ (∀ elem : Nat, elem < 2 ^ 8 →
        (omnisci_array_is_null_ ⟨NBKind.int true, 8⟩ 129 elem = true ↔ elem = 129)) := by
  refine ⟨int_sentinel_iff, ?_, by decide, ?_⟩
  · intro w nv elem helem
    unfold omnisci_array_is_null_ sentinelPattern
    simp only [irConstPattern_ofNat]
    rw [Nat.mod_eq_of_lt helem]
    simp
  · intro elem helem
    rw [int_sentinel_iff true 8 129 elem (by norm_num) helem]
    norm_num

theorem C5_sentinel_null_check_witness :
    omnisci_array_is_null_ ⟨NBKind.int true, 8⟩ 129 129 = true
    ∧ omnisci_array_is_null_ ⟨NBKind.int true, 8⟩ 129 7 = false := by
  constructor
  · exact (C5_sentinel_null_check.2.2.2 129 (by norm_num)).mpr rfl
  · have h := C5_sentinel_null_check.2.2.2 7 (by norm_num)
    rcases Bool.eq_false_or_eq_true (omnisci_array_is_null_ ⟨NBKind.int true, 8⟩ 129 7) with hb | hb
    · exact absurd (h.mp hb) (by norm_num)
    · exact hb

/-- C6: the `is_null`/`set_null` overloads dispatch on whether an index
argument was supplied: with no index they lower to the whole-buffer
variants that read (resp. write 1 to) the flag field at GEP index 2, and
with an index they lower to the per-element sentinel variants. -/
theorem C6_null_dispatch (heap : Nat → Nat) (buf : BufferStruct) (T : NBType)
    (nv : Nat) (ftr fex : Nat → Nat) :
    (omnisci_buffer_is_null heap buf T nv none = omnisci_buffer_is_null_ buf)
    ∧ (omnisci_buffer_is_null heap buf T nv none = buf.fields.getD 2 0)
    ∧ (∀ i, omnisci_buffer_is_null heap buf T nv (some i)
        = if omnisci_array_is_null_ T nv (omnisci_buffer_ptr_getitem_ heap buf i)
          then 1 else 0)
    ∧ (omnisci_buffer_set_null heap buf T nv ftr fex none
        = (omnisci_buffer_set_null_ buf, heap))
    ∧ ((omnisci_buffer_set_null heap buf T nv ftr fex none).1.fields = buf.fields.set 2 1)
    ∧ (∀ i, omnisci_buffer_set_null heap buf T nv ftr fex (some i)
        = (buf, omnisci_array_set_null_ heap buf T nv ftr fex i)) :=
  ⟨rfl, rfl, fun _ => rfl, rfl, rfl, fun _ => rfl⟩

/-- C7: layout derivation is deterministic and always yields the field
order `[pointer, size, ...extra]` with identical field types, and the
accessors index the lowered struct positionally — the payload pointer at
position 0 (`gep [0,0]`), the size at position 1 (`gep [0,1]`), the flag
at position 2 (`gep [0,2]`) — consistently with where the constructor
places those fields. -/
theorem C7_layout_stability (E : TSType) (M : List TSType) :
    (tonumba E M = tonumba E M)
    ∧ (tonumba E M = ptrFieldOf E :: szFieldOf :: M)
    ∧ ((tonumba E M).get? 0 = some (ptrFieldOf E))
    ∧ ((tonumba E M).get? 1 = some szFieldOf)
    ∧ (∀ k, (tonumba E M).get? (2 + k) = M.get? k)
    ∧ (∀ (heap : Nat → Nat) (buf : BufferStruct) (i : Nat),
        omnisci_buffer_ptr_getitem_ heap buf i = heap (buf.fields.getD 0 0 + i))
    ∧ (∀ buf : BufferStruct, omnisci_buffer_ptr_len_ buf = buf.fields.getD 1 0)
    ∧ (∀ buf : BufferStruct, omnisci_buffer_is_null_ buf = buf.fields.getD 2 0)
    ∧ (∀ (hasNull : Bool) (alloc : Nat → Nat → Nat) (b : Nat) (r : BuilderBuffers)
        (w N : Nat), N < 2 ^ 64 →
        omnisci_buffer_ptr_len_ (omnisci_buffer_constructor hasNull alloc b r w N).buf = N
        ∧ (omnisci_buffer_constructor hasNull alloc b r w N).buf.fields.getD 0 0
            = alloc N (w / 8)) := by
  refine ⟨rfl, rfl, rfl, rfl, fun k => ?_, fun _ _ _ => rfl, fun _ => rfl, fun _ => rfl, ?_⟩
  · show (ptrFieldOf E :: szFieldOf :: M).get? (2 + k) = M.get? k
    rw [Nat.add_comm]
    rfl
  · intro hasNull alloc b r w N hlt
    have hmod : N % 2 ^ 64 = N := Nat.mod_eq_of_lt hlt
    constructor
    · cases hasNull
      · show N % 2 ^ 64 = N
        exact hmod
      · show N % 2 ^ 64 = N
        exact hmod
    · cases hasNull
      · show alloc (N % 2 ^ 64) (w / 8) = alloc N (w / 8)
        rw [hmod]
      · show alloc (N % 2 ^ 64) (w / 8) = alloc N (w / 8)
        rw [hmod]

theorem C7_layout_stability_witness :
    (tonumba ⟨"", "int32"⟩ [⟨"is_null", "int8"⟩]).get? 0 = some (ptrFieldOf ⟨"", "int32"⟩)
    ∧ omnisci_buffer_ptr_len_
        (omnisci_buffer_constructor true (fun _ _ => 77) 0 [] 32 5).buf = 5 := by
  constructor
  · exact (C7_layout_stability ⟨"", "int32"⟩ [⟨"is_null", "int8"⟩]).2.2.1
  · exact ((C7_layout_stability ⟨"", "int32"⟩ []).2.2.2.2.2.2.2.2
      true (fun _ _ => 77) 0 [] 32 5 (by norm_num)).1

/-- C8: a malformed element-type specification — an argument list that
is not exactly one single-element tuple — fails the arity asserts in
`preprocess_args`, surfacing a synchronous error instead of a layout. -/
theorem C8_arity_rejection (fromobject : String → TSType) (args : List (List String))
    (h : ∀ e : String, args ≠ [[e]]) :
    preprocess_args fromobject args = Except.error ("AssertionError") := by
  rcases args with _ | ⟨a, tail⟩
  · rfl
  · rcases tail with _ | ⟨b, tl⟩
    · rcases a with _ | ⟨e, etl⟩
      · rfl
      · rcases etl with _ | ⟨f, ftl⟩
        · exact absurd rfl (h e)
        · rfl
    · rfl

theorem C8_arity_rejection_witness :
    preprocess_args (fun s => ⟨s, s⟩) [] = Except.error ("AssertionError")
    ∧ preprocess_args (fun s => ⟨s, s⟩) [["a", "b"]] = Except.error ("AssertionError") :=
  ⟨C8_arity_rejection (fun s => ⟨s, s⟩) [] (fun e hE => by simp at hE),
   C8_arity_rejection (fun s => ⟨s, s⟩) [["a", "b"]] (fun e hE => by simp at hE)⟩

/-- C10: each loaded-struct-mode intrinsic requires its struct argument
to be the result of a `load` instruction; on such an argument the
assertion passes and the field address is recomputed from the load's
source pointer, while on any non-load argument the intrinsic fails the
assertion instead of generating code. -/
theorem C10_loaded_struct_assert :
    (∀ (smem : Nat → BufferStruct) (heap : Nat → Nat) (nb el : NBType) (vW bW : Nat)
        (ftr fex : Nat → Nat) (src i v : Nat),
        omnisci_buffer_len_ smem (IRValue.loadInst src)
            = Except.ok ((smem src).fields.getD 1 0)
        ∧ omnisci_buffer_getitem_ smem heap (IRValue.loadInst src) i
            = Except.ok (heap ((smem src).fields.getD 0 0 + i))
        ∧ omnisci_buffer_setitem_ smem heap nb el vW bW ftr fex (IRValue.loadInst src) i v
            = Except.ok (fun a =>
                if a = (smem src).fields.getD 0 0 + i then
                  applyCoerceOp ftr fex (truncate_or_extend nb el vW bW) v
                else heap a))
    ∧ (∀ (smem : Nat → BufferStruct) (heap : Nat → Nat) (nb el : NBType) (vW bW : Nat)
        (ftr fex : Nat → Nat) (i v : Nat) (data : IRValue), data.opname ≠ "load" →
        omnisci_buffer_len_ smem data = Except.error ("AssertionError")
        ∧ omnisci_buffer_getitem_ smem heap data i = Except.error ("AssertionError")
        ∧ omnisci_buffer_setitem_ smem heap nb el vW bW ftr fex data i v
            = Except.error ("AssertionError")) := by
  constructor
  · intro smem heap nb el vW bW ftr fex src i v
    exact ⟨rfl, rfl, rfl⟩
  · intro smem heap nb el vW bW ftr fex i v data hop
    refine ⟨?_, ?_, ?_⟩ <;>
      simp [omnisci_buffer_len_, omnisci_buffer_getitem_, omnisci_buffer_setitem_, hop]

theorem C10_loaded_struct_assert_witness :
    omnisci_buffer_len_ (fun _ => ⟨[3, 4]⟩) (IRValue.loadInst 0) = Except.ok 4
    ∧ omnisci_buffer_len_ (fun _ => ⟨[3, 4]⟩) (IRValue.argValue 0)
        = Except.error ("AssertionError") := by
  constructor
  · exact (C10_loaded_struct_assert.1 (fun _ => ⟨[3, 4]⟩) (fun _ => 0) ⟨NBKind.other, 0⟩
      ⟨NBKind.other, 0⟩ 0 0 (fun x => x) (fun x => x) 0 0 0).1
  · exact (C10_loaded_struct_assert.2 (fun _ => ⟨[3, 4]⟩) (fun _ => 0) ⟨NBKind.other, 0⟩
      ⟨NBKind.other, 0⟩ 0 0 (fun x => x) (fun x => x) 0 0 (IRValue.argValue 0)
      (by decide)).1
